import Mathlib

/-!
Verification of the smart-study-assistant application (`src/app.py`).

The app's core logic is embedded shallowly:

* Python strings are Lean `String`s; the slicing and stripping primitives are
  modelled over `String.data` (`List Char`), matching Python's code-point
  semantics.
* `generate_summary` is parameterised by the optional primary model
  `hf_summarizer` (an `Option (String → Except Unit String)`: `none` models
  the model failing to load at process start, `Except.error` models an
  exception raised during invocation).
* The extractive fallback (the third-party sumy LexRank summarizer and its
  sentence tokenizer, which are not part of this repository) is modelled from
  the spec: sentence splitting, a word-overlap similarity graph, a
  degree-centrality ranking, and the top-5 extraction joined by spaces.
* The sqlite `history` table is a `Db` value: a list of entries plus the
  next AUTOINCREMENT id; `CURRENT_TIMESTAMP` is a `Nat` supplied by a server
  clock at each insertion.  `ORDER BY timestamp DESC` is modelled as a stable
  insertion sort (equal keys are returned in table order, which is rowid
  order for a full scan).
* Each Flask handler becomes a function from the request inputs and the
  current `Db` to a response value and the new `Db`.  External effects
  (saving the upload, gTTS synthesis, PyPDF2 page extraction) are modelled by
  explicit parameters carrying their outcome.
-/

set_option autoImplicit false

namespace StudyApp

/-! ## Python string primitives -/

/-- Python `s.strip()`: remove whitespace from both ends. -/
def pyStrip (s : String) : String :=
  ⟨((s.data.dropWhile Char.isWhitespace).reverse.dropWhile Char.isWhitespace).reverse⟩

/-- Python `s[:n]`: the first `n` code points of `s`. -/
def pyTake (s : String) (n : Nat) : String :=
  ⟨s.data.take n⟩

/-! ## Fallback extractive summarizer

Modelled from the spec: the fallback used by `generate_summary`
(`PlaintextParser` + `Tokenizer("english")` + `LexRankSummarizer` from the
third-party `sumy` library, invoked as `" ".join(str(s) for s in
lex(parser.document, 5))` at `src/app.py:355-357`) is not code of this
repository, so it is modelled from the spec's description: "tokenize into
sentences using language-aware sentence splitting, build a
sentence-similarity graph, rank sentences by a centrality/eigenvector-style
algorithm (graph-based extractive ranking), and concatenate the top 5 ranked
sentences in their ranked order, joined by single spaces". -/

/-- A sentence-terminating character. -/
def isSentenceEnd (c : Char) : Bool :=
  c == '.' || c == '!' || c == '?'

/-- Split a character list at sentence terminators; each terminator ends the
current piece (and is kept in it). `acc` holds the current piece reversed. -/
def splitSentsAux : List Char → List Char → List (List Char)
  | [], acc => [acc.reverse]
  | c :: rest, acc =>
    if isSentenceEnd c then (c :: acc).reverse :: splitSentsAux rest []
    else splitSentsAux rest (c :: acc)

/-- Trim whitespace from both ends of a character list. -/
def trimChars (l : List Char) : List Char :=
  ((l.dropWhile Char.isWhitespace).reverse.dropWhile Char.isWhitespace).reverse

/-- Modelled from the spec: language-aware sentence tokenization (sumy's
`Tokenizer("english").to_sentences`).  Pieces are cut at `.`, `!`, `?`,
trimmed, and empty pieces are dropped. -/
def splitSentences (t : String) : List String :=
  ((splitSentsAux t.data []).map fun l => (⟨trimChars l⟩ : String)).filter
    fun s => s ≠ ""

/-- The words of a sentence: maximal runs of non-whitespace characters. -/
def wordsOf (s : String) : List String :=
  (s.data.splitOnP Char.isWhitespace).filter (fun w => w ≠ []) |>.map
    fun w => (⟨w⟩ : String)

/-- Modelled from the spec: edge weight of the sentence-similarity graph —
the number of word occurrences of `a` shared with `b`. -/
def similarity (a b : String) : Nat :=
  ((wordsOf a).filter fun w => (wordsOf b).contains w).length

/-- Modelled from the spec: centrality of a sentence in the similarity graph
(total similarity to the document's sentences). -/
def rating (sents : List String) (s : String) : Nat :=
  ((sents.map fun u => similarity s u).foldl (· + ·) 0)

/-- Insert `e` into a list sorted by `key` in descending order, after any
element of equal key (stability). -/
def insertByDesc {α : Type} (key : α → Nat) (e : α) : List α → List α
  | [] => [e]
  | x :: xs => if key e ≤ key x then x :: insertByDesc key e xs else e :: x :: xs

/-- Stable insertion sort, descending by `key`; equal keys keep their
original relative order. -/
def sortByDesc {α : Type} (key : α → Nat) (l : List α) : List α :=
  l.foldl (fun acc x => insertByDesc key x acc) []

/-- Modelled from the spec: the document's sentences ranked by descending
graph centrality. -/
def rankSentences (sents : List String) : List String :=
  sortByDesc (rating sents) sents

/-- Python `" ".join(parts)`. -/
def joinSpace : List String → String
  | [] => ""
  | [s] => s
  | s :: rest => s ++ " " ++ joinSpace rest

/-- Modelled from the spec: the whole fallback path of `generate_summary`
(`src/app.py:355-357`): top 5 ranked sentences, in ranked order, joined by
single spaces. -/
def fallbackSummary (t : String) : String :=
  joinSpace ((rankSentences (splitSentences t)).take 5)

/-! ## generate_summary (`src/app.py:345-357`) -/

/-- The body of `generate_summary` after preprocessing: try the primary
model if configured, swallow any exception, fall back to LexRank. -/
def summarizeCore (primary : Option (String → Except Unit String))
    (t : String) : String :=
  match primary with
  | some f =>
    match f t with
    | .ok r => r
    | .error _ => fallbackSummary t
  | none => fallbackSummary t

/-- `generate_summary` (`src/app.py:345-357`).  `primary` is the module-level
`hf_summarizer`: `none` when the model failed to load at process start; when
present, `Except.error` models an exception raised during the call (caught by
the bare `except: pass`). -/
def generate_summary (primary : Option (String → Except Unit String))
    (text : String) : String :=
  let t := pyTake (pyStrip text) 3000
  match primary with
  | some f =>
    match f t with
    | .ok r => r
    | .error _ => fallbackSummary t
  | none => fallbackSummary t

/-- `text.strip()[:3000]`, the preprocessing step of `generate_summary`. -/
def preprocess (text : String) : String :=
  pyTake (pyStrip text) 3000

/-! ## The history table (`src/app.py:53-91`) -/

/-- A row of the sqlite `history` table: `id INTEGER PRIMARY KEY
AUTOINCREMENT, action TEXT, filename TEXT, summary TEXT, timestamp DATETIME
DEFAULT CURRENT_TIMESTAMP`.  The timestamp is a `Nat` (the `DATETIME` text
`YYYY-MM-DD HH:MM:SS` compares chronologically). -/
structure Entry where
  id : Nat
  action : String
  filename : String
  summary : String
  timestamp : Nat
  deriving DecidableEq, Repr

/-- The `history` table: rows in rowid (insertion) order plus the next
AUTOINCREMENT id.  A fresh database starts at id 1. -/
structure Db where
  entries : List Entry
  nextId : Nat
  deriving DecidableEq, Repr

/-- The empty database produced by `init_db`. -/
def initDb : Db := ⟨[], 1⟩

/-- `add_history` (`src/app.py:83-91`): INSERT a row; sqlite assigns the next
AUTOINCREMENT id and `CURRENT_TIMESTAMP` (the server clock `ts`). -/
def add_history (db : Db) (action filename summary : String) (ts : Nat) : Db :=
  { entries := db.entries ++ [⟨db.nextId, action, filename, summary, ts⟩]
    nextId := db.nextId + 1 }

/-- `history_page` (`src/app.py:223-231`): `SELECT ... FROM history ORDER BY
timestamp DESC`.  Modelled as a stable descending sort on the timestamp:
rows with equal timestamps are returned in table (rowid) order. -/
def history_page (db : Db) : List Entry :=
  sortByDesc (fun e => e.timestamp) db.entries

/-- Response of the `/history/<id>` route. -/
inductive DetailResult where
  | notFound (body : String) (status : Nat)
  | page (e : Entry)
  deriving DecidableEq, Repr

/-- `history_detail` (`src/app.py:233-243`): `SELECT ... WHERE id=?` then
`fetchone()`; an absent row becomes `("History not found", 404)`. -/
def history_detail (db : Db) (historyId : Nat) : DetailResult :=
  match db.entries.find? (fun e => e.id == historyId) with
  | none => .notFound "History not found" 404
  | some e => .page e

/-- A database built by replaying a sequence of `add_history` calls
(action, filename, summary, clock value) against the fresh database. -/
def replay (ops : List (String × String × String × Nat)) : Db :=
  ops.foldl (fun db op => add_history db op.1 op.2.1 op.2.2.1 op.2.2.2) initDb

/-! ## HTTP handlers (`src/app.py:246-322`) -/

/-- Outcome of a page handler: a rendered page (with its flash `message`,
the extracted `original` text and the `summary`), or an unhandled exception
(Flask turns it into a 500 and the handler's remaining statements never
run). -/
inductive PageOutcome where
  | page (message original summary : String)
  | crash
  deriving DecidableEq, Repr

/-- One page of an uploaded PDF as seen through `PyPDF2`: `extract_text()`
either raises or returns a string (`""` stands for a falsy result, i.e.
`None` or the empty string). -/
inductive PageData where
  | raise
  | text (t : String)
  deriving DecidableEq, Repr

/-- The PDF loop of `upload_page` (`src/app.py:264-272`): the `try` block
wraps the whole `for page in reader.pages` loop, so the first raising page
aborts the loop; a falsy `extract_text()` result is skipped by `if text:`.
Returns the accumulated text and whether an exception was caught. -/
def extractPdfAux : List PageData → String → String × Bool
  | [], acc => (acc, false)
  | .raise :: _, acc => (acc, true)
  | .text t :: rest, acc =>
    extractPdfAux rest (if t ≠ "" then acc ++ t ++ " " else acc)

/-- The uploaded file of a POST to `/upload`:  nothing selected, a `.txt`
file with its decoded content, or a `.pdf` file with its pages. -/
inductive FileInput where
  | noFile
  | txtFile (name content : String)
  | pdfFile (name : String) (pages : List PageData)
  deriving DecidableEq, Repr

/-- The tail of `upload_page` (`src/app.py:274-279`): summarize the
extracted text if it is non-blank and record the action, otherwise report
"No readable text found.".  `summ` is the summarizer (`generate_summary`
applied to a fixed primary); `Except.error` models it raising. -/
def uploadTail (db : Db) (name original : String)
    (summ : String → Except Unit String) (ts : Nat) : PageOutcome × Db :=
  if pyStrip original ≠ "" then
    match summ original with
    | .ok s =>
      (.page "File summarized successfully!" original s,
       add_history db "Upload & Summarize" name s ts)
    | .error _ => (.crash, db)
  else (.page "No readable text found." original "", db)

/-- `upload_page` POST branch (`src/app.py:246-283`).  `pyAvail` models the
module-level `PyPDF2` import (`None` when unavailable, which makes the
`elif ... and PyPDF2` guard false so no extraction happens). -/
def upload_page (db : Db) (file : FileInput) (pyAvail : Bool)
    (summ : String → Except Unit String) (ts : Nat) : PageOutcome × Db :=
  match file with
  | .noFile => (.page "No file selected." "" "", db)
  | .txtFile name content => uploadTail db name content summ ts
  | .pdfFile name pages =>
    let original := if pyAvail then (extractPdfAux pages "").1 else ""
    uploadTail db name original summ ts

/-- `summary_page` POST branch (`src/app.py:286-301`): strip the pasted
text; if non-empty, summarize and record, else flash "No text provided.". -/
def summary_page (db : Db) (formText : String)
    (summ : String → Except Unit String) (ts : Nat) : PageOutcome × Db :=
  let original := pyStrip formText
  if original ≠ "" then
    match summ original with
    | .ok s =>
      (.page "" original s, add_history db "Text Summarize" "Text Input" s ts)
    | .error _ => (.crash, db)
  else (.page "No text provided." "" "", db)

/-- Response of the `/text-to-speech` JSON endpoint. -/
inductive TtsResult where
  | clientError (msg : String) (status : Nat)
  | serverError (status : Nat)
  | ok (audioUrl : String)
  deriving DecidableEq, Repr

/-- `text_to_speech` (`src/app.py:304-322`): strip the text, reject below 5
characters with a 400, synthesize (`ttsOk = false` models `gTTS` raising,
answered with a 500 and no recording), then record "Voice Generated" with
the excerpt `text[:150]`.  `filename` models the generated uuid name. -/
def text_to_speech (db : Db) (formText filename : String) (ttsOk : Bool)
    (ts : Nat) : TtsResult × Db :=
  let text := pyStrip formText
  if text.length < 5 then (.clientError "Text too short" 400, db)
  else if ttsOk then
    (.ok ("/static/audio/" ++ filename),
     add_history db "Voice Generated" filename (pyTake text 150) ts)
  else (.serverError 500, db)

/-! ## Helper lemmas: the stable descending sort -/

theorem length_insertByDesc {α : Type} (key : α → Nat) (e : α) (l : List α) :
    (insertByDesc key e l).length = l.length + 1 := by
  induction l with
  | nil => rfl
  | cons x xs ih =>
    simp only [insertByDesc]
    split <;> simp [ih]

theorem mem_insertByDesc {α : Type} {key : α → Nat} {e a : α} {l : List α} :
    a ∈ insertByDesc key e l ↔ a = e ∨ a ∈ l := by
  induction l with
  | nil => simp [insertByDesc]
  | cons x xs ih =>
    simp only [insertByDesc]
    split
    · simp only [List.mem_cons, ih]
      tauto
    · simp only [List.mem_cons]

theorem mem_foldl_insertByDesc {α : Type} (key : α → Nat) (a : α) :
    ∀ (l init : List α),
      a ∈ l.foldl (fun acc x => insertByDesc key x acc) init ↔ a ∈ init ∨ a ∈ l := by
  intro l
  induction l with
  | nil => simp
  | cons x xs ih =>
    intro init
    simp only [List.foldl_cons, ih, mem_insertByDesc, List.mem_cons]
    tauto

theorem mem_sortByDesc {α : Type} {key : α → Nat} {a : α} {l : List α} :
    a ∈ sortByDesc key l ↔ a ∈ l := by
  simp [sortByDesc, mem_foldl_insertByDesc]

theorem length_foldl_insertByDesc {α : Type} (key : α → Nat) :
    ∀ (l init : List α),
      (l.foldl (fun acc x => insertByDesc key x acc) init).length =
        init.length + l.length := by
  intro l
  induction l with
  | nil => simp
  | cons x xs ih =>
    intro init
    simp only [List.foldl_cons, ih, length_insertByDesc, List.length_cons]
    omega

theorem length_sortByDesc {α : Type} (key : α → Nat) (l : List α) :
    (sortByDesc key l).length = l.length := by
  simp [sortByDesc, length_foldl_insertByDesc]

theorem insertByDesc_eq_cons {α : Type} {key : α → Nat} {e : α} {l : List α}
    (h : ∀ x ∈ l, key x < key e) : insertByDesc key e l = e :: l := by
  cases l with
  | nil => rfl
  | cons x xs =>
    have hx := h x (List.mem_cons_self x xs)
    simp only [insertByDesc]
    rw [if_neg (by omega)]

theorem sortByDesc_append_one {α : Type} (key : α → Nat) (l : List α) (e : α) :
    sortByDesc key (l ++ [e]) = insertByDesc key e (sortByDesc key l) := by
  simp [sortByDesc, List.foldl_append]

/-! ## Helper lemmas: Python strings and sentence splitting -/

theorem pyStrip_length_le (t : String) : (pyStrip t).length ≤ t.length := by
  show (((t.data.dropWhile Char.isWhitespace).reverse.dropWhile
      Char.isWhitespace).reverse).length ≤ t.data.length
  rw [List.length_reverse]
  calc ((t.data.dropWhile Char.isWhitespace).reverse.dropWhile
          Char.isWhitespace).length
      ≤ (t.data.dropWhile Char.isWhitespace).reverse.length :=
        (List.dropWhile_sublist _).length_le
    _ = (t.data.dropWhile Char.isWhitespace).length := List.length_reverse _
    _ ≤ t.data.length := (List.dropWhile_sublist _).length_le

theorem pyTake_of_length_le {t : String} {n : Nat} (h : t.length ≤ n) :
    pyTake t n = t := by
  show String.mk (t.data.take n) = t
  rw [List.take_of_length_le h]

theorem head_dropWhile_false {α : Type} {p : α → Bool} :
    ∀ {l : List α} {c : α} {rest : List α},
      l.dropWhile p = c :: rest → p c = false := by
  intro l
  induction l with
  | nil => intro c rest h; simp [List.dropWhile] at h
  | cons x xs ih =>
    intro c rest h
    by_cases hx : p x = true
    · rw [List.dropWhile_cons_of_pos hx] at h
      exact ih h
    · rw [List.dropWhile_cons_of_neg hx] at h
      cases h
      exact Bool.eq_false_iff.mpr hx

theorem mem_dropWhile_of_not {α : Type} {p : α → Bool} {c : α} :
    ∀ {l : List α}, c ∈ l → p c = false → c ∈ l.dropWhile p := by
  intro l
  induction l with
  | nil => intro h; cases h
  | cons x xs ih =>
    intro hc hpc
    by_cases hx : p x = true
    · rw [List.dropWhile_cons_of_pos hx]
      rcases List.mem_cons.mp hc with rfl | h
      · rw [hpc] at hx; cases hx
      · exact ih h hpc
    · rw [List.dropWhile_cons_of_neg hx]
      exact hc

theorem exists_not_ws_of_pyStrip_ne {t : String} (h : pyStrip t ≠ "") :
    ∃ c ∈ (pyStrip t).data, c.isWhitespace = false := by
  have hne : (pyStrip t).data ≠ [] := fun hnil => h (String.ext hnil)
  show ∃ c ∈ ((t.data.dropWhile Char.isWhitespace).reverse.dropWhile
      Char.isWhitespace).reverse, c.isWhitespace = false
  have hne' : ((t.data.dropWhile Char.isWhitespace).reverse.dropWhile
      Char.isWhitespace).reverse ≠ [] := hne
  cases hdw : (t.data.dropWhile Char.isWhitespace).reverse.dropWhile
      Char.isWhitespace with
  | nil => rw [hdw] at hne'; simp at hne'
  | cons c rest =>
    refine ⟨c, ?_, head_dropWhile_false hdw⟩
    exact List.mem_reverse.mpr (List.mem_cons_self c rest)

theorem trimChars_ne_nil {c : Char} {l : List Char} (hc : c ∈ l)
    (hws : c.isWhitespace = false) : trimChars l ≠ [] := by
  have h1 : c ∈ l.dropWhile Char.isWhitespace := mem_dropWhile_of_not hc hws
  have h2 : c ∈ (l.dropWhile Char.isWhitespace).reverse :=
    List.mem_reverse.mpr h1
  have h3 : c ∈ (l.dropWhile Char.isWhitespace).reverse.dropWhile
      Char.isWhitespace := mem_dropWhile_of_not h2 hws
  have h4 : c ∈ trimChars l := List.mem_reverse.mpr h3
  exact List.ne_nil_of_mem h4

theorem flatten_splitSentsAux :
    ∀ (l acc : List Char), (splitSentsAux l acc).flatten = acc.reverse ++ l := by
  intro l
  induction l with
  | nil => intro acc; simp [splitSentsAux]
  | cons c rest ih =>
    intro acc
    simp only [splitSentsAux]
    split
    · simp [ih]
    · rw [ih]
      simp

theorem splitSentences_ne_nil {t : String}
    (h : ∃ c ∈ t.data, c.isWhitespace = false) : splitSentences t ≠ [] := by
  obtain ⟨c, hc, hws⟩ := h
  have hjoin : c ∈ (splitSentsAux t.data []).flatten := by
    rw [flatten_splitSentsAux]
    simpa using hc
  obtain ⟨piece, hpiece, hcp⟩ := List.mem_flatten.mp hjoin
  have htrim : trimChars piece ≠ [] := trimChars_ne_nil hcp hws
  have hsne : (⟨trimChars piece⟩ : String) ≠ "" := by
    intro hcontra
    exact htrim (by simpa using congrArg String.data hcontra)
  have hmem : (⟨trimChars piece⟩ : String) ∈ splitSentences t := by
    unfold splitSentences
    rw [List.mem_filter]
    refine ⟨List.mem_map.mpr ⟨piece, hpiece, rfl⟩, by simpa using hsne⟩
  exact List.ne_nil_of_mem hmem

theorem mem_splitSentences_ne_empty {t s : String}
    (h : s ∈ splitSentences t) : s ≠ "" := by
  unfold splitSentences at h
  have := (List.mem_filter.mp h).2
  simpa using this

theorem joinSpace_ne_empty {s : String} {rest : List String} (h : s ≠ "") :
    joinSpace (s :: rest) ≠ "" := by
  have hne : s.data ≠ [] := by
    intro hnil
    exact h (by cases s; simp_all)
  cases rest with
  | nil => exact h
  | cons r rs =>
    show s ++ " " ++ joinSpace (r :: rs) ≠ ""
    intro hcontra
    have : (s ++ " " ++ joinSpace (r :: rs)).data = [] := by
      rw [hcontra]
    rw [String.data_append, String.data_append] at this
    simp [List.append_eq_nil] at this

theorem append_empty_str (s : String) : s ++ "" = s :=
  String.ext (by rw [String.data_append]; exact List.append_nil _)

theorem empty_append_str (s : String) : "" ++ s = s :=
  String.ext (by rw [String.data_append]; rfl)

/-! ## Claim theorems -/

/-- A primary model stub that always raises, used to witness the
error-swallowing contract of `generate_summary`. -/
def failingPrimary : String → Except Unit String := fun _ => Except.error ()

/-- C1 (as stated, counterexample): the input `" "` is a non-empty string of
fewer than 3000 characters, yet with the primary model unavailable
`generate_summary` returns the empty string (the strip step empties the
text, so the fallback has no sentences to rank), contradicting the claimed
non-emptiness for every non-empty input. -/
theorem generate_summary_whitespace_counterexample :
    (" " : String) ≠ "" ∧ (" " : String).length < 3000 ∧
    generate_summary none " " = "" := by
  refine ⟨by decide, by decide, by decide⟩

/-- C1 (amended): for every input text that is non-empty after stripping and
under 3000 characters, with the primary model unavailable, `generate_summary`
returns a non-empty string, equal to the top 5 ranked sentences of the
preprocessed input concatenated in ranked order joined by single spaces, and
every sentence of the output is one of the input's sentences. -/
theorem generate_summary_fallback_extractive (t : String)
    (hne : pyStrip t ≠ "") (hlen : t.length < 3000) :
    generate_summary none t ≠ "" ∧
    generate_summary none t =
      joinSpace ((rankSentences (splitSentences (preprocess t))).take 5) ∧
    ∀ s ∈ (rankSentences (splitSentences (preprocess t))).take 5,
      s ∈ splitSentences (preprocess t) := by
  have hpre : preprocess t = pyStrip t :=
    pyTake_of_length_le (le_of_lt (lt_of_le_of_lt (pyStrip_length_le t) hlen))
  have hsents : splitSentences (preprocess t) ≠ [] := by
    rw [hpre]
    exact splitSentences_ne_nil (exists_not_ws_of_pyStrip_ne hne)
  have hrank : rankSentences (splitSentences (preprocess t)) ≠ [] := by
    intro hnil
    have := length_sortByDesc (rating (splitSentences (preprocess t)))
      (splitSentences (preprocess t))
    rw [show sortByDesc (rating (splitSentences (preprocess t)))
          (splitSentences (preprocess t)) =
        rankSentences (splitSentences (preprocess t)) from rfl, hnil] at this
    exact hsents (List.length_eq_zero.mp this.symm)
  refine ⟨?_, rfl, ?_⟩
  · cases hr : rankSentences (splitSentences (preprocess t)) with
    | nil => exact absurd hr hrank
    | cons s0 rest =>
      have hs0 : s0 ∈ splitSentences (preprocess t) := by
        have : s0 ∈ rankSentences (splitSentences (preprocess t)) := by
          rw [hr]; exact List.mem_cons_self s0 rest
        exact mem_sortByDesc.mp this
      have hs0ne : s0 ≠ "" := mem_splitSentences_ne_empty hs0
      show joinSpace ((rankSentences (splitSentences (preprocess t))).take 5) ≠ ""
      rw [hr, List.take_succ_cons]
      exact joinSpace_ne_empty hs0ne
  · intro s hs
    exact mem_sortByDesc.mp (List.mem_of_mem_take hs)

/-- C1 (witness). -/
theorem generate_summary_fallback_witness :
    generate_summary none "Cats purr. Dogs bark here." ≠ "" :=
  (generate_summary_fallback_extractive "Cats purr. Dogs bark here."
    (by decide) (by decide)).1

/-- C2: any exception raised during the primary-model invocation inside
`generate_summary` is swallowed and control falls through to the fallback
with no retry, so a primary model that always raises yields exactly the
result of having no primary model; and with the model never configured
(`hf_summarizer` is `None`) every call goes directly to the fallback on the
preprocessed text. -/
theorem generate_summary_swallows_primary_error (t : String)
    (f : String → Except Unit String) (hfail : ∀ s, f s = Except.error ()) :
    generate_summary (some f) t = generate_summary none t ∧
    generate_summary none t = fallbackSummary (preprocess t) := by
  refine ⟨?_, rfl⟩
  simp [generate_summary, hfail]

/-- C2 (witness). -/
theorem generate_summary_swallows_primary_error_witness :
    generate_summary (some failingPrimary) "Alpha beta. Gamma." =
      generate_summary none "Alpha beta. Gamma." :=
  (generate_summary_swallows_primary_error "Alpha beta. Gamma."
    failingPrimary (fun _ => rfl)).1

/-- C4: `generate_summary` first strips the text and truncates it to at most
3000 characters, and both the primary branch and the fallback branch operate
only on this preprocessed text (the whole body factors through
`preprocess`). -/
theorem generate_summary_preprocesses
    (p : Option (String → Except Unit String)) (t : String) :
    generate_summary p t = summarizeCore p (preprocess t) ∧
    preprocess t = pyTake (pyStrip t) 3000 ∧
    (preprocess t).length ≤ 3000 := by
  refine ⟨rfl, rfl, ?_⟩
  show ((pyStrip t).data.take 3000).length ≤ 3000
  rw [List.length_take]
  exact min_le_left _ _

/-! ## Ledger invariants -/

/-- The ledger invariant: rows in table order have strictly increasing ids
and nondecreasing timestamps, and every id is below the next AUTOINCREMENT
value. -/
def Wf (db : Db) : Prop :=
  db.entries.Pairwise (fun x y => x.id < y.id ∧ x.timestamp ≤ y.timestamp) ∧
  ∀ e ∈ db.entries, e.id < db.nextId

/-- The id part of the ledger invariant (holds regardless of the clock). -/
def WfIds (db : Db) : Prop :=
  db.entries.Pairwise (fun x y => x.id < y.id) ∧
  ∀ e ∈ db.entries, e.id < db.nextId

theorem wfIds_add_history (db : Db) (a f s : String) (ts : Nat)
    (h : WfIds db) : WfIds (add_history db a f s ts) := by
  obtain ⟨hpw, hbound⟩ := h
  constructor
  · show List.Pairwise _ (db.entries ++ [⟨db.nextId, a, f, s, ts⟩])
    rw [List.pairwise_append]
    refine ⟨hpw, List.pairwise_singleton _ _, ?_⟩
    intro x hx y hy
    rcases List.mem_singleton.mp hy with rfl
    exact hbound x hx
  · show ∀ e ∈ db.entries ++ [⟨db.nextId, a, f, s, ts⟩], _
    intro e he
    rcases List.mem_append.mp he with hl | hr
    · exact Nat.lt_succ_of_lt (hbound e hl)
    · rcases List.mem_singleton.mp hr with rfl
      exact Nat.lt_succ_self _

theorem wfIds_replay (ops : List (String × String × String × Nat)) :
    WfIds (replay ops) := by
  suffices h : ∀ (l : List (String × String × String × Nat)) (db : Db),
      WfIds db →
      WfIds (l.foldl
        (fun db op => add_history db op.1 op.2.1 op.2.2.1 op.2.2.2) db) by
    exact h ops initDb ⟨List.Pairwise.nil, by intro e he; cases he⟩
  intro l
  induction l with
  | nil => intro db h; exact h
  | cons op rest ih =>
    intro db h
    exact ih _ (wfIds_add_history _ _ _ _ _ h)

theorem find?_id_of_pairwise :
    ∀ {l : List Entry}, l.Pairwise (fun x y => x.id < y.id) →
      ∀ {e : Entry}, e ∈ l → l.find? (fun x => x.id == e.id) = some e := by
  intro l
  induction l with
  | nil => intro _ e he; cases he
  | cons x xs ih =>
    intro hpw e he
    rcases List.mem_cons.mp he with rfl | hmem
    · rw [List.find?_cons_of_pos _ (by simp)]
    · have hlt : x.id < e.id := (List.pairwise_cons.mp hpw).1 e hmem
      rw [List.find?_cons_of_neg _ (by simp; omega)]
      exact ih (List.pairwise_cons.mp hpw).2 hmem

/-! ## C3 -/

/-- C3 (as stated, counterexample): two `add_history` calls landing on the
same `CURRENT_TIMESTAMP` second (timestamp 7).  `history_page` orders by
`timestamp DESC` with no id tiebreaker, so the listing shows the *older*
entry (id 1) first even though the newly recorded entry has id 2 — the
claimed "new entry first, ties broken by id" fails on a timestamp tie. -/
theorem history_order_tie_counterexample :
    (history_page (add_history
        (add_history initDb "Text Summarize" "Text Input" "s1" 7)
        "Voice Generated" "v.mp3" "s2" 7)).head? =
      some ⟨1, "Text Summarize", "Text Input", "s1", 7⟩ ∧
    (add_history (add_history initDb "Text Summarize" "Text Input" "s1" 7)
        "Voice Generated" "v.mp3" "s2" 7).entries.getLast? =
      some ⟨2, "Voice Generated", "v.mp3", "s2", 7⟩ ∧
    (⟨1, "Text Summarize", "Text Input", "s1", 7⟩ : Entry) ≠
      ⟨2, "Voice Generated", "v.mp3", "s2", 7⟩ := by
  decide

/-- C3 (amended): under a monotone server clock — the new `created_at` at
least every existing entry's, *ties allowed* — the `Wf` invariant (id order
== insertion order, `created_at` nondecreasing along ids) holds of the
fresh database and is preserved by every `record`, so id ordering is
consistent with `created_at` ordering for every such sequence of records;
every existing entry has a strictly smaller id and a `created_at` ≤ the new
one's; and whenever the new `created_at` is additionally *strictly* greater
than every existing entry's, `record` followed by `list_all` shows the new
entry first.  (With a tied `created_at` the listing, ordered by timestamp
only, shows the older tied entry first instead — the counterexample.) -/
theorem record_then_list_all (db : Db) (a f s : String) (ts : Nat)
    (hwf : Wf db) (hmono : ∀ e ∈ db.entries, e.timestamp ≤ ts) :
    Wf initDb ∧
    Wf (add_history db a f s ts) ∧
    (∀ e ∈ db.entries, e.id < db.nextId ∧ e.timestamp ≤ ts) ∧
    ((∀ e ∈ db.entries, e.timestamp < ts) →
      (history_page (add_history db a f s ts)).head? =
        some ⟨db.nextId, a, f, s, ts⟩) := by
  obtain ⟨hpw, hbound⟩ := hwf
  refine ⟨⟨List.Pairwise.nil, by intro e he; cases he⟩, ?_, ?_, ?_⟩
  · constructor
    · show List.Pairwise _ (db.entries ++ [⟨db.nextId, a, f, s, ts⟩])
      rw [List.pairwise_append]
      refine ⟨hpw, List.pairwise_singleton _ _, ?_⟩
      intro x hx y hy
      rcases List.mem_singleton.mp hy with rfl
      exact ⟨hbound x hx, hmono x hx⟩
    · show ∀ e ∈ db.entries ++ [⟨db.nextId, a, f, s, ts⟩], _
      intro e he
      rcases List.mem_append.mp he with hl | hr
      · exact Nat.lt_succ_of_lt (hbound e hl)
      · rcases List.mem_singleton.mp hr with rfl
        exact Nat.lt_succ_self _
  · intro e he
    exact ⟨hbound e he, hmono e he⟩
  · intro hts
    show (sortByDesc (fun e => e.timestamp)
        (db.entries ++ [⟨db.nextId, a, f, s, ts⟩])).head? = _
    rw [sortByDesc_append_one, insertByDesc_eq_cons]
    · rfl
    · intro x hx
      exact hts x (mem_sortByDesc.mp hx)

/-- C3 (witness): the first conjunct exercises the monotone hypothesis with
a tied timestamp (two inserts in the same second), the second with a
strictly advancing clock. -/
theorem record_then_list_all_witness :
    Wf (add_history (add_history initDb "Text Summarize" "Text Input" "s1" 7)
      "Voice Generated" "v.mp3" "s2" 7) ∧
    (history_page (add_history
        (add_history initDb "Text Summarize" "Text Input" "s1" 3)
        "Voice Generated" "v.mp3" "s2" 5)).head? =
      some ⟨2, "Voice Generated", "v.mp3", "s2", 5⟩ := by
  refine ⟨?_, ?_⟩
  · exact (record_then_list_all
      (add_history initDb "Text Summarize" "Text Input" "s1" 7)
      "Voice Generated" "v.mp3" "s2" 7
      (by constructor <;> decide) (by decide)).2.1
  · exact (record_then_list_all
      (add_history initDb "Text Summarize" "Text Input" "s1" 3)
      "Voice Generated" "v.mp3" "s2" 5
      (by constructor <;> decide) (by decide)).2.2.2 (by decide)

/-! ## C5 -/

/-- C5: when a "Voice Generated" action's stripped source text exceeds 150
characters, the excerpt handed to `add_history` is its first 150 characters
(exactly 150 long), the stored row carries that truncated value, and looking
the entry up again returns the truncated excerpt: the truncation happened at
record time. -/
theorem voice_excerpt_truncated (db : Db) (formText filename : String)
    (ts : Nat) (hlong : 150 < (pyStrip formText).length)
    (hids : ∀ e ∈ db.entries, e.id < db.nextId) :
    (text_to_speech db formText filename true ts).2.entries =
      db.entries ++ [⟨db.nextId, "Voice Generated", filename,
        pyTake (pyStrip formText) 150, ts⟩] ∧
    (pyTake (pyStrip formText) 150).length = 150 ∧
    history_detail (text_to_speech db formText filename true ts).2 db.nextId =
      .page ⟨db.nextId, "Voice Generated", filename,
        pyTake (pyStrip formText) 150, ts⟩ := by
  have h5 : ¬ (pyStrip formText).length < 5 := by omega
  have hstep : (text_to_speech db formText filename true ts).2 =
      add_history db "Voice Generated" filename
        (pyTake (pyStrip formText) 150) ts := by
    simp [text_to_speech, if_neg h5]
  have hlen : (pyTake (pyStrip formText) 150).length = 150 := by
    show ((pyStrip formText).data.take 150).length = 150
    rw [List.length_take]
    exact min_eq_left (Nat.le_of_lt hlong)
  refine ⟨by rw [hstep]; rfl, hlen, ?_⟩
  rw [hstep]
  unfold history_detail
  show (match (db.entries ++ [(⟨db.nextId, "Voice Generated", filename,
      pyTake (pyStrip formText) 150, ts⟩ : Entry)]).find?
        (fun e => e.id == db.nextId) with
    | none => DetailResult.notFound "History not found" 404
    | some e => DetailResult.page e) = _
  rw [List.find?_append, List.find?_eq_none.mpr, Option.none_or]
  · rw [List.find?_cons_of_pos _ (by simp)]
  · intro x hx
    have := hids x hx
    simp
    omega

/-- A 151-character input used to witness the voice-excerpt truncation. -/
def longText : String := ⟨List.replicate 151 'a'⟩

set_option maxRecDepth 8000 in
/-- C5 (witness). -/
theorem voice_excerpt_truncated_witness :
    (pyTake (pyStrip longText) 150).length = 150 ∧
    history_detail (text_to_speech initDb longText "v.mp3" true 9).2 1 =
      .page ⟨1, "Voice Generated", "v.mp3", pyTake (pyStrip longText) 150, 9⟩ := by
  have h := voice_excerpt_truncated initDb longText "v.mp3" 9 (by decide)
    (by intro e he; cases he)
  exact ⟨h.2.1, h.2.2⟩

/-! ## C6 -/

/-- C6: over any database built by `add_history` calls, `history_detail`
with an id never assigned answers `("History not found", 404)`, and with an
id previously assigned it returns exactly the corresponding entry. -/
theorem history_detail_lookup (ops : List (String × String × String × Nat))
    (hid : Nat) :
    (hid ∉ (replay ops).entries.map (fun e => e.id) →
      history_detail (replay ops) hid = .notFound "History not found" 404) ∧
    (∀ e ∈ (replay ops).entries,
      history_detail (replay ops) e.id = .page e) := by
  constructor
  · intro hnot
    unfold history_detail
    rw [List.find?_eq_none.mpr]
    intro x hx hbeq
    exact hnot (List.mem_map.mpr ⟨x, hx, by simpa using hbeq⟩)
  · intro e he
    unfold history_detail
    rw [find?_id_of_pairwise (wfIds_replay ops).1 he]

/-- C6 (witness). -/
theorem history_detail_lookup_witness :
    history_detail (replay [("Text Summarize", "Text Input", "sum", 3)]) 99 =
      .notFound "History not found" 404 ∧
    history_detail (replay [("Text Summarize", "Text Input", "sum", 3)]) 1 =
      .page ⟨1, "Text Summarize", "Text Input", "sum", 3⟩ := by
  refine ⟨?_, ?_⟩
  · exact (history_detail_lookup
      [("Text Summarize", "Text Input", "sum", 3)] 99).1 (by decide)
  · exact (history_detail_lookup
      [("Text Summarize", "Text Input", "sum", 3)] 1).2
      ⟨1, "Text Summarize", "Text Input", "sum", 3⟩ (by decide)

/-! ## C10 -/

/-- C10: `add_history` stores the excerpt argument verbatim — the inserted
row's `summary` field is exactly the argument, of any length, with no
truncation inside `add_history` — while the 150-character truncation of
voice excerpts is performed by the `text_to_speech` caller, which passes
`text[:150]` to `add_history`. -/
theorem add_history_stores_verbatim :
    (∀ (db : Db) (a f s : String) (ts : Nat),
      (add_history db a f s ts).entries =
        db.entries ++ [⟨db.nextId, a, f, s, ts⟩] ∧
      (add_history db a f s ts).entries.getLast? =
        some ⟨db.nextId, a, f, s, ts⟩) ∧
    (∀ (db : Db) (t fn : String) (ts : Nat), 5 ≤ (pyStrip t).length →
      (text_to_speech db t fn true ts).2 =
        add_history db "Voice Generated" fn (pyTake (pyStrip t) 150) ts) := by
  constructor
  · intro db a f s ts
    refine ⟨rfl, ?_⟩
    show (db.entries ++ [(⟨db.nextId, a, f, s, ts⟩ : Entry)]).getLast? = _
    rw [List.getLast?_append]
    rfl
  · intro db t fn ts h5
    simp [text_to_speech, if_neg (by omega : ¬ (pyStrip t).length < 5)]

/-- C10 (witness). -/
theorem add_history_stores_verbatim_witness :
    (text_to_speech initDb "Hello there world" "v.mp3" true 4).2 =
      add_history initDb "Voice Generated" "v.mp3"
        (pyTake (pyStrip "Hello there world") 150) 4 :=
  add_history_stores_verbatim.2 initDb "Hello there world" "v.mp3" 4 (by decide)

/-! ## C7 -/

/-- A summarizer stub that always succeeds with a fixed summary. -/
def constSumm : String → Except Unit String := fun _ => Except.ok "S."

/-- C7: within one request, extraction, summarization and ledger recording
happen strictly in that order: the ledger entry is created only after the
summarizer returns, captures exactly the summarizer's output on the
extracted (resp. pasted) text, and if the summarizer raises the request
crashes with the database unchanged — no entry with an empty summary is
ever recorded. -/
theorem summarize_then_record :
    (∀ (db : Db) (t : String) (summ : String → Except Unit String) (ts : Nat)
        (e : Unit), pyStrip t ≠ "" → summ (pyStrip t) = .error e →
      summary_page db t summ ts = (.crash, db)) ∧
    (∀ (db : Db) (t : String) (summ : String → Except Unit String) (ts : Nat)
        (s : String), pyStrip t ≠ "" → summ (pyStrip t) = .ok s →
      summary_page db t summ ts =
        (.page "" (pyStrip t) s,
         add_history db "Text Summarize" "Text Input" s ts)) ∧
    (∀ (db : Db) (name : String) (pages : List PageData)
        (summ : String → Except Unit String) (ts : Nat) (e : Unit),
      pyStrip (extractPdfAux pages "").1 ≠ "" →
      summ (extractPdfAux pages "").1 = .error e →
      upload_page db (.pdfFile name pages) true summ ts = (.crash, db)) ∧
    (∀ (db : Db) (name : String) (pages : List PageData)
        (summ : String → Except Unit String) (ts : Nat) (s : String),
      pyStrip (extractPdfAux pages "").1 ≠ "" →
      summ (extractPdfAux pages "").1 = .ok s →
      upload_page db (.pdfFile name pages) true summ ts =
        (.page "File summarized successfully!" (extractPdfAux pages "").1 s,
         add_history db "Upload & Summarize" name s ts)) := by
  refine ⟨?_, ?_, ?_, ?_⟩
  · intro db t summ ts e hne hsumm
    show (if pyStrip t ≠ "" then _ else _) = _
    rw [if_pos hne, hsumm]
  · intro db t summ ts s hne hsumm
    show (if pyStrip t ≠ "" then _ else _) = _
    rw [if_pos hne, hsumm]
  · intro db name pages summ ts e hne hsumm
    show uploadTail db name (extractPdfAux pages "").1 summ ts = _
    show (if pyStrip (extractPdfAux pages "").1 ≠ "" then _ else _) = _
    rw [if_pos hne, hsumm]
  · intro db name pages summ ts s hne hsumm
    show uploadTail db name (extractPdfAux pages "").1 summ ts = _
    show (if pyStrip (extractPdfAux pages "").1 ≠ "" then _ else _) = _
    rw [if_pos hne, hsumm]

/-- C7 (witness). -/
theorem summarize_then_record_witness :
    summary_page initDb "Hi there." failingPrimary 3 = (.crash, initDb) ∧
    upload_page initDb (.pdfFile "n.pdf" [PageData.text "Hello."]) true
        constSumm 3 =
      (.page "File summarized successfully!" "Hello. " "S.",
       add_history initDb "Upload & Summarize" "n.pdf" "S." 3) := by
  refine ⟨?_, ?_⟩
  · exact summarize_then_record.1 initDb "Hi there." failingPrimary 3 ()
      (by decide) rfl
  · exact summarize_then_record.2.2.2 initDb "n.pdf" [PageData.text "Hello."]
      constSumm 3 "S." (by decide) rfl

/-! ## C8 -/

/-- C8: each input error is answered with a user-visible message or error
response, leaves the database untouched, and the handler returns normally
(a rendered page or a JSON error — never an unhandled exception): empty
pasted text flashes "No text provided.", a missing upload file flashes
"No file selected.", and text-to-speech input shorter than 5 characters
after stripping is rejected with a 400 before any synthesis or recording. -/
theorem input_errors_rejected :
    (∀ (db : Db) (t : String) (summ : String → Except Unit String) (ts : Nat),
      pyStrip t = "" →
      summary_page db t summ ts = (.page "No text provided." "" "", db)) ∧
    (∀ (db : Db) (pyAvail : Bool) (summ : String → Except Unit String)
        (ts : Nat),
      upload_page db .noFile pyAvail summ ts =
        (.page "No file selected." "" "", db)) ∧
    (∀ (db : Db) (t fn : String) (ttsOk : Bool) (ts : Nat),
      (pyStrip t).length < 5 →
      text_to_speech db t fn ttsOk ts =
        (.clientError "Text too short" 400, db)) ∧
    (∀ (m o s : String), PageOutcome.page m o s ≠ .crash) := by
  refine ⟨?_, ?_, ?_, ?_⟩
  · intro db t summ ts h
    show (if pyStrip t ≠ "" then _ else _) = _
    rw [if_neg (fun hc => hc h)]
  · intro db pyAvail summ ts
    rfl
  · intro db t fn ttsOk ts h
    show (if (pyStrip t).length < 5 then _ else _) = _
    rw [if_pos h]
  · intro m o s hc
    cases hc

/-- C8 (witness). -/
theorem input_errors_rejected_witness :
    summary_page initDb "   " constSumm 2 =
      (.page "No text provided." "" "", initDb) ∧
    upload_page initDb .noFile true constSumm 2 =
      (.page "No file selected." "" "", initDb) ∧
    text_to_speech initDb " hi " "v.mp3" true 2 =
      (.clientError "Text too short" 400, initDb) := by
  refine ⟨?_, ?_, ?_⟩
  · exact input_errors_rejected.1 initDb "   " constSumm 2 (by decide)
  · exact input_errors_rejected.2.1 initDb true constSumm 2
  · exact input_errors_rejected.2.2.1 initDb " hi " "v.mp3" true 2 (by decide)

/-! ## C9 -/

/-- Formalisation of C9's claimed extraction, following the spec's words:
a page on which the parser raises is "skipped silently and extraction
continues with the remaining pages"; pages with no text contribute
nothing. -/
def extractPdfClaim : List PageData → String
  | [] => ""
  | .raise :: rest => extractPdfClaim rest
  | .text t :: rest => (if t ≠ "" then t ++ " " else "") ++ extractPdfClaim rest

/-- C9 (as stated, counterexample): a two-page document whose first page
raises and whose second page holds "Hello world.".  The claimed
skip-and-continue extraction would yield "Hello world. ", but the code's
`try` wraps the whole page loop, so the raise aborts extraction with no text
at all and the request reports "No readable text found." with no ledger
entry. -/
theorem pdf_skip_continue_counterexample :
    (extractPdfAux [PageData.raise, PageData.text "Hello world."] "").1 = "" ∧
    extractPdfClaim [PageData.raise, PageData.text "Hello world."] =
      "Hello world. " ∧
    (extractPdfAux [PageData.raise, PageData.text "Hello world."] "").1 ≠
      extractPdfClaim [PageData.raise, PageData.text "Hello world."] ∧
    upload_page initDb
        (.pdfFile "n.pdf" [PageData.raise, PageData.text "Hello world."])
        true constSumm 3 =
      (.page "No readable text found." "" "", initDb) := by
  decide

/-- C9 (amended): a raising page aborts the page loop — text from earlier
pages is kept, that page and all later pages are skipped (silently: the
final message does not surface the error); on raise-free documents the
extraction agrees with the spec's skip-and-continue fold (blank pages are
skipped and extraction continues); when the parser is unavailable the PDF
branch is skipped entirely; and whenever the accumulated text is blank the
request reports "No readable text found." with no ledger entry. -/
theorem pdf_extraction_behaviour :
    (∀ (p₁ p₂ : List PageData) (acc : String),
      (extractPdfAux p₁ acc).2 = false →
      extractPdfAux (p₁ ++ PageData.raise :: p₂) acc =
        ((extractPdfAux p₁ acc).1, true)) ∧
    (∀ (p : List PageData) (acc : String), (extractPdfAux p acc).2 = false →
      (extractPdfAux p acc).1 = acc ++ extractPdfClaim p) ∧
    (∀ (db : Db) (name : String) (pages : List PageData)
        (summ : String → Except Unit String) (ts : Nat),
      upload_page db (.pdfFile name pages) false summ ts =
        (.page "No readable text found." "" "", db)) ∧
    (∀ (db : Db) (name : String) (pages : List PageData)
        (summ : String → Except Unit String) (ts : Nat),
      pyStrip (extractPdfAux pages "").1 = "" →
      upload_page db (.pdfFile name pages) true summ ts =
        (.page "No readable text found." (extractPdfAux pages "").1 "", db)) := by
  refine ⟨?_, ?_, ?_, ?_⟩
  · intro p₁
    induction p₁ with
    | nil => intro p₂ acc _; rfl
    | cons x xs ih =>
      intro p₂ acc h
      cases x with
      | raise => simp [extractPdfAux] at h
      | text t =>
        show extractPdfAux (xs ++ PageData.raise :: p₂)
            (if t ≠ "" then acc ++ t ++ " " else acc) = _
        exact ih p₂ _ h
  · intro p
    induction p with
    | nil =>
      intro acc _
      exact (append_empty_str acc).symm
    | cons x xs ih =>
      intro acc h
      cases x with
      | raise => simp [extractPdfAux] at h
      | text t =>
        have hstep : extractPdfAux (PageData.text t :: xs) acc =
            extractPdfAux xs (if t ≠ "" then acc ++ t ++ " " else acc) := rfl
        have hclaim : extractPdfClaim (PageData.text t :: xs) =
            (if t ≠ "" then t ++ " " else "") ++ extractPdfClaim xs := rfl
        by_cases ht : t = ""
        · rw [hstep, hclaim, if_neg (fun hc => hc ht),
            if_neg (fun hc => hc ht), empty_append_str]
          rw [hstep, if_neg (fun hc => hc ht)] at h
          exact ih acc h
        · rw [hstep, hclaim, if_pos ht, if_pos ht, ← String.append_assoc,
            ← String.append_assoc]
          rw [hstep, if_pos ht] at h
          exact ih (acc ++ t ++ " ") h
  · intro db name pages summ ts
    show uploadTail db name "" summ ts = _
    show (if pyStrip "" ≠ "" then _ else _) = _
    rw [if_neg (fun hc => hc rfl)]
  · intro db name pages summ ts h
    show uploadTail db name (extractPdfAux pages "").1 summ ts = _
    show (if pyStrip (extractPdfAux pages "").1 ≠ "" then _ else _) = _
    rw [if_neg (fun hc => hc h)]

/-- C9 (witness). -/
theorem pdf_extraction_behaviour_witness :
    extractPdfAux ([PageData.text "A."] ++ PageData.raise ::
        [PageData.text "B."]) "" =
      ((extractPdfAux [PageData.text "A."] "").1, true) ∧
    (extractPdfAux [PageData.text "A.", PageData.text "", PageData.text "B."]
        "").1 =
      "" ++ extractPdfClaim
        [PageData.text "A.", PageData.text "", PageData.text "B."] ∧
    upload_page initDb (.pdfFile "n.pdf" [PageData.raise]) true constSumm 3 =
      (.page "No readable text found."
        (extractPdfAux [PageData.raise] "").1 "", initDb) := by
  refine ⟨?_, ?_, ?_⟩
  · exact pdf_extraction_behaviour.1 [PageData.text "A."] [PageData.text "B."]
      "" (by decide)
  · exact pdf_extraction_behaviour.2.1
      [PageData.text "A.", PageData.text "", PageData.text "B."] "" (by decide)
  · exact pdf_extraction_behaviour.2.2.2 initDb "n.pdf" [PageData.raise]
      constSumm 3 (by decide)

end StudyApp
